import Mathlib

/-!
# EYE event system: form normalisation and form lifecycle service

A shallow embedding of `backend/src/services/formService.js`.

* The request body is a JSON value (`Json`); property reads, truthiness and
  string coercion follow ECMAScript on such values, and a thrown `TypeError`
  is an explicit `Except` error.
* The document store is explicit state (`Db`): the stored forms, the stored
  responses and the trace of the operations issued against it.
-/

namespace EventSystem

/-! ## JSON values and the JavaScript operations the service applies to them -/

/-- A value produced by `JSON.parse`. A Number is carried by its canonical
rendering `String(n)`, the only thing besides truthiness the service observes
of it; an object is the list of its own properties (the first entry of a key
is the property). -/
inductive Json where
  | null
  | bool (b : Bool)
  | num (repr : String)
  | str (s : String)
  | arr (xs : List Json)
  | obj (fs : List (String × Json))
deriving Repr

mutual
/-- Structural equality of JSON values is decidable. -/
def Json.decEq : (a b : Json) → Decidable (a = b)
  | .null, .null => isTrue rfl
  | .bool a, .bool b =>
    if h : a = b then isTrue (by rw [h]) else isFalse (by intro e; cases e; exact h rfl)
  | .num a, .num b =>
    if h : a = b then isTrue (by rw [h]) else isFalse (by intro e; cases e; exact h rfl)
  | .str a, .str b =>
    if h : a = b then isTrue (by rw [h]) else isFalse (by intro e; cases e; exact h rfl)
  | .arr a, .arr b =>
    match Json.decEqList a b with
    | isTrue h => isTrue (by rw [h])
    | isFalse h => isFalse (by intro e; cases e; exact h rfl)
  | .obj a, .obj b =>
    match Json.decEqFields a b with
    | isTrue h => isTrue (by rw [h])
    | isFalse h => isFalse (by intro e; cases e; exact h rfl)
  | .null, .bool _ | .null, .num _ | .null, .str _ | .null, .arr _ | .null, .obj _
  | .bool _, .null | .bool _, .num _ | .bool _, .str _ | .bool _, .arr _ | .bool _, .obj _
  | .num _, .null | .num _, .bool _ | .num _, .str _ | .num _, .arr _ | .num _, .obj _
  | .str _, .null | .str _, .bool _ | .str _, .num _ | .str _, .arr _ | .str _, .obj _
  | .arr _, .null | .arr _, .bool _ | .arr _, .num _ | .arr _, .str _ | .arr _, .obj _
  | .obj _, .null | .obj _, .bool _ | .obj _, .num _ | .obj _, .str _ | .obj _, .arr _ =>
    isFalse (by intro e; cases e)
/-- Equality of arrays of JSON values. -/
def Json.decEqList : (a b : List Json) → Decidable (a = b)
  | [], [] => isTrue rfl
  | [], _ :: _ => isFalse (by intro e; cases e)
  | _ :: _, [] => isFalse (by intro e; cases e)
  | x :: xs, y :: ys =>
    match Json.decEq x y, Json.decEqList xs ys with
    | isTrue h, isTrue h2 => isTrue (by rw [h, h2])
    | isFalse h, _ => isFalse (by intro e; cases e; exact h rfl)
    | _, isFalse h => isFalse (by intro e; cases e; exact h rfl)
/-- Equality of property lists. -/
def Json.decEqFields : (a b : List (String × Json)) → Decidable (a = b)
  | [], [] => isTrue rfl
  | [], _ :: _ => isFalse (by intro e; cases e)
  | _ :: _, [] => isFalse (by intro e; cases e)
  | (k, x) :: xs, (l, y) :: ys =>
    if hk : k = l then
      match Json.decEq x y, Json.decEqFields xs ys with
      | isTrue h, isTrue h2 => isTrue (by rw [hk, h, h2])
      | isFalse h, _ => isFalse (by intro e; cases e; exact h rfl)
      | _, isFalse h => isFalse (by intro e; cases e; exact h rfl)
    else isFalse (by intro e; cases e; exact hk rfl)
end

instance : DecidableEq Json := Json.decEq

/-- The one runtime error the normalisation can raise: a JavaScript `TypeError`
(reading a property of `null`/`undefined`, or converting to a primitive an
object that has no callable `toString`/`valueOf`). -/
inductive JSError where
  | typeError
deriving DecidableEq, Repr

instance {ε α : Type} [DecidableEq ε] [DecidableEq α] : DecidableEq (Except ε α)
  | .ok a, .ok b =>
    if h : a = b then isTrue (by rw [h]) else isFalse (by intro e; cases e; exact h rfl)
  | .error a, .error b =>
    if h : a = b then isTrue (by rw [h]) else isFalse (by intro e; cases e; exact h rfl)
  | .ok _, .error _ => isFalse (by intro e; cases e)
  | .error _, .ok _ => isFalse (by intro e; cases e)

/-! ## ECMAScript operations on JSON values -/

/-- The coercion `Boolean(v)` of a JSON value: `null`, `false`, the numbers `0`, `-0`
(both render as `"0"`) and `NaN`, and the empty string are falsy. -/
def Json.truthy : Json → Bool
  | .null => false
  | .bool b => b
  | .num r => !(r == "0" || r == "NaN")
  | .str s => !(s == "")
  | .arr _ => true
  | .obj _ => true

/-- The coercion `Boolean(v)` of a JSON value or `undefined` (`none`). -/
def truthy : Option Json → Bool
  | none => false
  | some j => j.truthy

/-- The test `Array.isArray(v)`. -/
def isArray : Option Json → Bool
  | some (.arr _) => true
  | _ => false

/-- The test `v === undefined || v === null` made by `??` and `?.`. -/
def nullish : Option Json → Bool
  | none => true
  | some .null => true
  | _ => false

/-- The property read `v.key` for the names the service reads (`questions`,
`pages`, `elements`, `name`, `type`, `title`, `text`, `description`,
`isRequired`, `choices`, `value`, `label`), none of which is a member of a
built-in prototype: an object yields its own property, any other non-nullish
value `undefined`, and reading from `null` or `undefined` throws. -/
def getProp (v : Option Json) (key : String) : Except JSError (Option Json) :=
  match v with
  | none => .error .typeError
  | some .null => .error .typeError
  | some (.obj fs) => .ok (fs.lookup key)
  | some _ => .ok none

/-- The optional read `v?.key`, for the same names: `undefined` on a nullish
`v`. -/
def getPropOpt (v : Option Json) (key : String) : Option Json :=
  match v with
  | some (.obj fs) => fs.lookup key
  | _ => none

/-- The optional index `v?.[0]`: the first element of an array, the own
property `"0"` of an object, the first character of a non-empty string, and
`undefined` otherwise. -/
def getIndex0 (v : Option Json) : Option Json :=
  match v with
  | some (.arr xs) => xs.head?
  | some (.obj fs) => fs.lookup "0"
  | some (.str s) => if s == "" then none else some (.str (s.take 1))
  | _ => none

mutual
/-- The coercion `String(v)` (the abstract operation ToString) of a JSON value. An array
joins the renderings of its elements with `","`. A plain object renders as
`"[object Object]"` through the inherited `Object.prototype.toString`, unless
an own property `toString` shadows it: that property is never callable, the
inherited `valueOf` returns the object itself, and the conversion throws. -/
def Json.toStr : Json → Except JSError String
  | .null => .ok "null"
  | .bool b => .ok (if b then "true" else "false")
  | .num r => .ok r
  | .str s => .ok s
  | .arr xs => Json.joinStr xs
  | .obj fs => if (fs.lookup "toString").isSome then .error .typeError else .ok "[object Object]"
/-- The method `Array.prototype.join` with the separator `","`: a `null` element
contributes the empty string. -/
def Json.joinStr : List Json → Except JSError String
  | [] => .ok ""
  | [.null] => .ok ""
  | [x] => Json.toStr x
  | .null :: y :: r =>
    match Json.joinStr (y :: r) with
    | .ok b => .ok ("," ++ b)
    | .error e => .error e
  | x :: y :: r =>
    match Json.toStr x with
    | .error e => .error e
    | .ok a =>
      match Json.joinStr (y :: r) with
      | .ok b => .ok (a ++ "," ++ b)
      | .error e => .error e
end

/-- The coercion `String(v)` of a JSON value or `undefined`. -/
def toStr : Option Json → Except JSError String
  | none => .ok "undefined"
  | some j => j.toStr

/-- A value the normalisation can store in a question's `type`: `undefined`, a
JSON value, or the member of `Object.prototype` inherited under a key (a
built-in function, or the prototype itself for `__proto__`). -/
inductive JSVal where
  | undefined
  | json (j : Json)
  | inherited (key : String)
deriving DecidableEq, Repr

/-- The coercion `Boolean(v)`: every inherited member is an object, hence truthy. -/
def JSVal.truthy : JSVal → Bool
  | .undefined => false
  | .json j => j.truthy
  | .inherited _ => true

/-- The own properties of the literal `typeMap`. -/
def typeMap : List (String × String) :=
  [("text", "text"), ("comment", "textarea"), ("radiogroup", "radio"),
   ("checkbox", "checkbox"), ("dropdown", "dropdown"), ("rating", "rating"),
   ("scale", "scale"), ("date", "date"), ("email", "email")]

/-- The property names of `Object.prototype`, which every object literal
inherits. -/
def objectPrototypeKeys : List String :=
  ["constructor", "__defineGetter__", "__defineSetter__", "hasOwnProperty",
   "__lookupGetter__", "__lookupSetter__", "isPrototypeOf", "propertyIsEnumerable",
   "toString", "valueOf", "__proto__", "toLocaleString"]

/-- The read `typeMap[key]` for a string key: an own property, else a member
inherited from `Object.prototype`, else `undefined`. -/
def typeMapGet (key : String) : JSVal :=
  match typeMap.lookup key with
  | some v => .json (.str v)
  | none => if key ∈ objectPrototypeKeys then .inherited key else .undefined

/-! ## `FormService.mapIncomingQuestions` -/

/-- The method `Array.prototype.map` on the elements of a JSON array (which has no holes),
from position `idx` on: the callback `f` receives the element and its index,
in order, and the first callback that throws aborts the call. -/
def arrayMapFrom {β : Type} (f : Nat → Json → Except JSError β) (idx : Nat) :
    List Json → Except JSError (List β)
  | [] => pure []
  | x :: xs => do
    let y ← f idx x
    let ys ← arrayMapFrom f (idx + 1) xs
    pure (y :: ys)

/-- An entry of a question's `opts`. -/
structure Opt where
  val : String
  lbl : String
deriving DecidableEq, Repr

/-- An element of the list `mapIncomingQuestions` returns. -/
structure Question where
  qId : Json
  type : JSVal
  text : Json
  desc : Option Json
  req : Bool
  opts : List Opt
deriving DecidableEq, Repr

/-- The field `qId: el.name || q_<idx + 1>`. -/
def mapQId (idx : Nat) (el : Json) : Except JSError Json := do
  let name ← getProp (some el) "name"
  match name with
  | some n => if n.truthy then pure n else pure (.str ("q_" ++ toString (idx + 1)))
  | none => pure (.str ("q_" ++ toString (idx + 1)))

/-- The field `type: typeMap[el.type] || 'text'`; the key is `String(el.type)`. -/
def mapType (el : Json) : Except JSError JSVal := do
  let ty ← getProp (some el) "type"
  let key ← toStr ty
  let looked := typeMapGet key
  if looked.truthy then pure looked else pure (.json (.str "text"))

/-- The field `text: el.title || el.text || Question <idx + 1>`. -/
def mapText (idx : Nat) (el : Json) : Except JSError Json := do
  let title ← getProp (some el) "title"
  match title with
  | some t =>
    if t.truthy then pure t
    else
      let text ← getProp (some el) "text"
      match text with
      | some x => if x.truthy then pure x else pure (.str ("Question " ++ toString (idx + 1)))
      | none => pure (.str ("Question " ++ toString (idx + 1)))
  | none =>
    let text ← getProp (some el) "text"
    match text with
    | some x => if x.truthy then pure x else pure (.str ("Question " ++ toString (idx + 1)))
    | none => pure (.str ("Question " ++ toString (idx + 1)))

/-- The callback of `el.choices.map`: a string choice keeps its text under the
positional value; any other choice `c` gives `String(c.value ?? i + 1)` and
`String(c.text ?? c.label ?? '')`. -/
def mapChoice (i : Nat) (c : Json) : Except JSError Opt :=
  match c with
  | .str s => pure { val := toString (i + 1), lbl := s }
  | _ => do
    let value ← getProp (some c) "value"
    let val ← if nullish value then pure (toString (i + 1)) else toStr value
    let text ← getProp (some c) "text"
    let label ← if nullish text then getProp (some c) "label" else pure text
    let lbl ← if nullish label then pure "" else toStr label
    pure { val := val, lbl := lbl }

/-- The field `opts`: the mapped `el.choices` when that is an array, else `[]`. -/
def mapOpts (el : Json) : Except JSError (List Opt) := do
  let choices ← getProp (some el) "choices"
  match choices with
  | some (.arr cs) => arrayMapFrom mapChoice 0 cs
  | _ => pure []

/-- The callback of `elements.map`: the question built from the element `el` at
position `idx`, its fields evaluated in source order. -/
def mapElement (idx : Nat) (el : Json) : Except JSError Question := do
  let qId ← mapQId idx el
  let type ← mapType el
  let text ← mapText idx el
  let desc ← getProp (some el) "description"
  let isRequired ← getProp (some el) "isRequired"
  let opts ← mapOpts el
  pure { qId := qId, type := type, text := text, desc := desc, req := truthy isRequired,
         opts := opts }

/-- The test `Array.isArray(incoming.questions) && incoming.questions.length > 0
&& incoming.questions[0]?.type` on the value of `incoming.questions`. -/
def typedQuestions (questions : Option Json) : Bool :=
  match questions with
  | some (.arr (q :: _)) => truthy (getPropOpt (some q) "type")
  | _ => false

/-- The constant `elements` of `mapIncomingQuestions`: `incoming.questions` when
it passes `typedQuestions`, else `incoming.pages?.[0]?.elements` when that is an
array, else `incoming.questions`. -/
def selectElements (incoming : Json) : Except JSError (Option Json) := do
  let questions ← getProp (some incoming) "questions"
  if typedQuestions questions then pure questions
  else
    let pages ← getProp (some incoming) "pages"
    let nested := getPropOpt (getIndex0 pages) "elements"
    if isArray nested then pure nested else pure questions

/-- The static method `FormService.mapIncomingQuestions(incoming)`: the list of
questions, or the `TypeError` thrown on the way. -/
def mapIncomingQuestions (incoming : Json) : Except JSError (List Question) := do
  let elements ← selectElements incoming
  match elements with
  | some (.arr els) => arrayMapFrom mapElement 0 els
  | _ => pure []

/-- The nine values of the question type enumeration. -/
def questionTypes : List JSVal :=
  [.json (.str "text"), .json (.str "textarea"), .json (.str "radio"),
   .json (.str "checkbox"), .json (.str "dropdown"), .json (.str "rating"),
   .json (.str "scale"), .json (.str "date"), .json (.str "email")]

/-! ## The document store and `FormService.deleteForm` -/

/-- Modelled from the spec: `utils/errors.js` (`ApiError`), "a single tagged
error carrying a message and numeric status". -/
structure ApiError where
  message : String
  status : Nat
deriving DecidableEq, Repr

/-- Modelled from the spec: `models/Form.js`, as far as the lifecycle service
reads it: the identifier (an ObjectId, carried by its hexadecimal rendering
`String(_id)`), the optional creator reference (likewise) and the settings. -/
structure Form where
  _id : String
  createdBy : Option String
  settings : Option Json
deriving DecidableEq, Repr

/-- Modelled from the spec: `models/Response.js`, a response "belongs to
exactly one Form via a foreign key". -/
structure Response where
  _id : String
  formId : String
deriving DecidableEq, Repr

/-- Modelled from the spec: the caller attached by the authentication
middleware, "an authenticated-caller object exposing `id` and `role`". A field
is `none` when the property is `undefined`; `id` is carried by its rendering
`String(id)`. -/
structure User where
  id : Option String
  role : Option String
deriving DecidableEq, Repr

/-- An operation issued against the document store. -/
inductive DbOp where
  | findById (id : String)
  | deleteMany (formId : String)
  | deleteOne (id : String)
deriving DecidableEq, Repr

/-- The document store: both collections and the trace of issued operations. -/
structure Db where
  forms : List Form
  responses : List Response
  log : List DbOp
deriving DecidableEq, Repr

/-- Which of the two deletions of the cascade is rejected by the store. -/
structure Faults where
  deleteManyFails : Bool
  deleteOneFails : Bool
deriving DecidableEq, Repr

/-- The query `Form.findById(id)`: the stored form with that identifier, if any. -/
def findById (db : Db) (id : String) : Option Form :=
  db.forms.find? (fun f => f._id == id)

/-- The rendering `String(user.id)`: an `undefined` id renders as `"undefined"`. -/
def User.idString (u : User) : String :=
  match u.id with
  | some s => s
  | none => "undefined"

/-- The constant `isOwner`:
`user && form.createdBy && String(form.createdBy) === String(user.id)`. -/
def isOwner (user : Option User) (form : Form) : Bool :=
  match user, form.createdBy with
  | some u, some c => c == u.idString
  | _, _ => false

/-- The constant `legacyNoOwner`: `!form.createdBy`. -/
def legacyNoOwner (form : Form) : Bool :=
  form.createdBy.isNone

/-- The constant `admin`: `user && user.role === 'admin'`. -/
def admin (user : Option User) : Bool :=
  match user with
  | some u => u.role == some "admin"
  | none => false

/-- The call `Response.deleteMany` with the filter `formId: form._id`, when the store
accepts it. -/
def deleteMany (faults : Faults) (formId : String) (db : Db) : Db :=
  { forms := db.forms
    responses := if faults.deleteManyFails then db.responses
                 else db.responses.filter (fun r => !(r.formId == formId))
    log := db.log ++ [DbOp.deleteMany formId] }

/-- The call `form.deleteOne()`, when the store accepts it. -/
def deleteOne (faults : Faults) (id : String) (db : Db) : Db :=
  { forms := if faults.deleteOneFails then db.forms
             else db.forms.filter (fun f => !(f._id == id))
    responses := db.responses
    log := db.log ++ [DbOp.deleteOne id] }

/-- The static method `FormService.deleteForm(id, user)`: the outcome and the store afterwards.
`isValid` is `mongoose.Types.ObjectId.isValid`. `Promise.allSettled` issues both
deletions and never rejects, so the call returns `true` once authorised. -/
def deleteForm (isValid : String → Bool) (faults : Faults) (db : Db) (id : String)
    (user : Option User) : Except ApiError Bool × Db :=
  if !isValid id then (.error ⟨"Invalid form id", 400⟩, db)
  else
    let db1 : Db := { forms := db.forms, responses := db.responses, log := db.log ++ [DbOp.findById id] }
    match findById db id with
    | none => (.error ⟨"Form not found", 404⟩, db1)
    | some form =>
      if !isOwner user form && !legacyNoOwner form && !admin user then
        (.error ⟨"Not authorized to delete this form", 403⟩, db1)
      else
        (.ok true, deleteOne faults form._id (deleteMany faults form._id db1))

/-- The authorisation rule of the specification: the caller's id equals the
form's `createdBy`, or the form has no `createdBy`, or the caller is an admin. -/
def Authorised (user : Option User) (form : Form) : Prop :=
  (∃ u, user = some u ∧ form.createdBy = some u.idString) ∨
  form.createdBy = none ∨
  (∃ u, user = some u ∧ u.role = some "admin")

/-- A store with one form owned by user `a1` and two responses to it. -/
def sampleDb : Db :=
  { forms := [⟨"f1", some "a1", none⟩, ⟨"f2", none, none⟩]
    responses := [⟨"r1", "f1"⟩, ⟨"r2", "f1"⟩, ⟨"r3", "f2"⟩]
    log := [] }

/-- A validity check accepting the identifiers used in the examples. -/
def sampleValid (id : String) : Bool :=
  id.length == 2

/-! ## Inputs used in the examples, and the specification of an option -/

/-- A body whose `questions` has a first element with an empty `type`, next to
a `pages[0].elements` array of two elements. -/
def untypedFirstInput : Json :=
  .obj [("questions", .arr [.obj [("type", .str ""), ("name", .str "a")]]),
        ("pages", .arr [.obj [("elements",
          .arr [.obj [("name", .str "b")], .obj [("name", .str "c")]])]])]

/-- A body without `questions` whose `pages[0].elements` holds one element. -/
def pagesInput : Json :=
  .obj [("pages", .arr [.obj [("elements",
    .arr [.obj [("name", .str "b"), ("type", .str "comment")]])]])]

/-- A body whose only question has the type `"constructor"`. -/
def inheritedTypeInput : Json :=
  .obj [("questions", .arr [.obj [("type", .str "constructor")]])]

/-- A body whose `questions` array holds a `null` after a typed element. -/
def nullElementInput : Json :=
  .obj [("questions", .arr [.obj [("type", .str "text")], .null])]

/-- A body whose only question has a `null` entry among its `choices`. -/
def nullChoiceInput : Json :=
  .obj [("questions", .arr [.obj [("type", .str "radiogroup"), ("choices", .arr [.null])]])]

/-- An element whose `name` is present and empty. -/
def emptyNameElement : Json :=
  .obj [("name", .str ""), ("title", .str "Age")]

/-- A body with two questions of the same `name`. -/
def duplicateNameInput : Json :=
  .obj [("questions", .arr [.obj [("type", .str "text"), ("name", .str "a")],
                            .obj [("type", .str "text"), ("name", .str "a")]])]

/-- Two elements, the first named `a`, the second without a name. -/
def mixedNameElements : List Json :=
  [.obj [("type", .str "text"), ("name", .str "a")], .obj [("type", .str "date")]]

/-- A body whose `questions` is `mixedNameElements`. -/
def mixedNameInput : Json :=
  .obj [("questions", .arr mixedNameElements)]

/-- The question of the end-to-end example of the specification: the name
`q1`, the type `radiogroup`, required, with the choices `Yes` and `No`. -/
def surveyElement : Json :=
  .obj [("name", .str "q1"), ("type", .str "radiogroup"),
        ("isRequired", .bool true), ("choices", .arr [.str "Yes", .str "No"])]

/-- The body of the end-to-end example: the title `Survey` and the one question
`surveyElement`. -/
def surveyInput : Json :=
  .obj [("title", .str "Survey"), ("questions", .arr [surveyElement])]

/-- The question the specification expects for `surveyElement`. -/
def surveyQuestion : Question :=
  { qId := .str "q1", type := .json (.str "radio"), text := .str "Question 1", desc := none,
    req := true, opts := [⟨"1", "Yes"⟩, ⟨"2", "No"⟩] }

/-- The option the specification gives for an object choice at position `i`:
the value is `value` as a string, or the decimal of `i + 1` when `value` is
absent (`undefined` or `null`); the label is `text`, else `label`, else the
empty string. -/
def specOption (i : Nat) (fs : List (String × Json)) : Except JSError Opt := do
  let val ← match fs.lookup "value" with
    | none => pure (toString (i + 1))
    | some .null => pure (toString (i + 1))
    | some v => v.toStr
  let lbl ← match fs.lookup "text" with
    | none | some .null =>
      match fs.lookup "label" with
      | none | some .null => pure ""
      | some l => l.toStr
    | some t => t.toStr
  pure { val := val, lbl := lbl }

/-- The number a list of decimal digit characters denotes, continuing from
`acc`. -/
def digitsValue (cs : List Char) (acc : Nat) : Nat :=
  cs.foldl (fun a c => 10 * a + (c.toNat - 48)) acc

/-! ## `FormService.createForm`, `FormService.getForm` and `FormController.get` -/

/-- The object `payload` that `createForm` hands to `Form.create`. A field read
from the body is `none` when the property is `undefined`; `createdBy` is
present only when the spread adds it. -/
structure FormPayload where
  title : Option Json
  description : Option Json
  settings : Option Json
  isPublished : Bool
  questions : List Question
  createdBy : Option String
deriving DecidableEq, Repr

/-- The spread of `createdBy: user.id` under the test `user?.id`: the caller's
id when there is a caller whose id is truthy (an id is a string or an ObjectId,
so it is falsy only when `undefined` or the empty string). -/
def payloadCreatedBy (user : Option User) : Option String :=
  match user with
  | some u =>
    match u.id with
    | some s => if s == "" then none else some s
    | none => none
  | none => none

/-- The comparison `incoming.isPublished === true`: strict equality with the
boolean `true`, without any coercion. -/
def strictlyTrue : Option Json → Bool
  | some (.bool true) => true
  | _ => false

/-- The static method `FormService.createForm(incoming, user)` up to the call of
`Form.create`: the payload it persists, or the `TypeError` thrown while the
questions are normalised. -/
def createForm (incoming : Json) (user : Option User) : Except JSError FormPayload := do
  let questions ← mapIncomingQuestions incoming
  let title ← getProp (some incoming) "title"
  let description ← getProp (some incoming) "description"
  let settings ← getProp (some incoming) "settings"
  let isPublished ← getProp (some incoming) "isPublished"
  pure { title := title, description := description, settings := settings,
         isPublished := strictlyTrue isPublished, questions := questions,
         createdBy := payloadCreatedBy user }

/-- Modelled from the spec: the projection `.select('-settings.redirectUrl')` of
the store, "the full record minus the settings' redirect URL field": the
settings object loses its own property `redirectUrl`. -/
def withoutRedirectUrl (form : Form) : Form :=
  { _id := form._id
    createdBy := form.createdBy
    settings := match form.settings with
      | some (.obj fs) => some (.obj (fs.filter (fun kv => !(kv.1 == "redirectUrl"))))
      | other => other }

/-- The static method `FormService.getForm(id)`: the outcome and the store
afterwards. `isValid` is `mongoose.Types.ObjectId.isValid`. -/
def getForm (isValid : String → Bool) (db : Db) (id : String) : Except ApiError Form × Db :=
  if !isValid id then (.error ⟨"Invalid form id", 400⟩, db)
  else
    let db1 : Db := { forms := db.forms, responses := db.responses, log := db.log ++ [DbOp.findById id] }
    match findById db id with
    | none => (.error ⟨"Form not found", 404⟩, db1)
    | some form => (.ok (withoutRedirectUrl form), db1)

/-- What a controller does with a request: it sends a JSON envelope under a
status, or forwards an error with `next(err)`. -/
inductive Reply where
  | sent (status : Nat) (success : Bool) (message : Option String) (data : Form)
  | forwarded (err : ApiError)
deriving DecidableEq, Repr

/-- The helper `ok` of `utils/response.js`: status 200 and the envelope with
`success: true`, the message and the data. -/
def response.ok (data : Form) (message : Option String) : Reply :=
  .sent 200 true message data

/-- The handler `FormController.get` for the request parameter `id` and the
caller `req.user`: the reply and the store afterwards. -/
def FormController.get (isValid : String → Bool) (db : Db) (id : String)
    (user : Option User) : Reply × Db :=
  match getForm isValid db id with
  | (.error err, db1) => (.forwarded err, db1)
  | (.ok form, db1) =>
    if truthy (getPropOpt form.settings "requiresLogin") && user.isNone then
      (.forwarded ⟨"Auth required", 401⟩, db1)
    else (response.ok form none, db1)

/-! ## `sanitizeValue` of the sanitize middleware -/

mutual
/-- The function `sanitizeValue(value)` of `middleware/sanitize.js`; `xss` is the
string filter of the `xss` package. -/
def sanitizeValue (xss : String → String) : Json → Json
  | .str s => .str (xss s)
  | .arr xs => .arr (sanitizeArray xss xs)
  | .obj fs => .obj (sanitizeEntries xss fs)
  | .null => .null
  | .bool b => .bool b
  | .num r => .num r
/-- The call `value.map(sanitizeValue)` on an array. -/
def sanitizeArray (xss : String → String) : List Json → List Json
  | [] => []
  | x :: xs => sanitizeValue xss x :: sanitizeArray xss xs
/-- The entries of `Object.entries(value)`, each value sanitised under its key,
as `Object.fromEntries` receives them. -/
def sanitizeEntries (xss : String → String) : List (String × Json) → List (String × Json)
  | [] => []
  | (k, v) :: fs => (k, sanitizeValue xss v) :: sanitizeEntries xss fs
end

mutual
/-- The strings of a JSON value at any depth, in document order. -/
def Json.strings : Json → List String
  | .str s => [s]
  | .arr xs => Json.stringsOfArray xs
  | .obj fs => Json.stringsOfEntries fs
  | .null => []
  | .bool _ => []
  | .num _ => []
/-- The strings within the elements of an array. -/
def Json.stringsOfArray : List Json → List String
  | [] => []
  | x :: xs => Json.strings x ++ Json.stringsOfArray xs
/-- The strings within the values of an object. -/
def Json.stringsOfEntries : List (String × Json) → List String
  | [] => []
  | (_, v) :: fs => Json.strings v ++ Json.stringsOfEntries fs
end

/-- A stored form whose settings hold a redirect URL and require login. -/
def redirectForm : Form :=
  { _id := "f3", createdBy := some "a1",
    settings := some (.obj [("requiresLogin", .bool true), ("redirectUrl", .str "https://eye.example/done")]) }

/-- A store holding `redirectForm` and a form without settings. -/
def redirectDb : Db :=
  { forms := [redirectForm, ⟨"f2", none, none⟩], responses := [⟨"r1", "f3"⟩], log := [] }

/-- A body that sets `isPublished` to `v` next to the survey question. -/
def publishedInput (v : Json) : Json :=
  .obj [("title", .str "Survey"), ("isPublished", v), ("questions", .arr [surveyElement])]

/-! ## Theorems -/

/-! ### Auxiliary facts -/

theorem bind_eq_ok {α β : Type} (x : Except JSError α) (f : α → Except JSError β) (b : β) :
    (x >>= f) = .ok b ↔ ∃ a, x = .ok a ∧ f a = .ok b := by
  cases x with
  | error e => simp [bind, Except.bind]
  | ok a => simp [bind, Except.bind]

theorem arrayMapFrom_ok_iff {β : Type} (f : Nat → Json → Except JSError β) (k : Nat)
    (xs : List Json) (ys : List β) :
    arrayMapFrom f k xs = .ok ys ↔
      ys.length = xs.length ∧
      ∀ i (h : i < xs.length), ∃ y, ys[i]? = some y ∧ f (k + i) xs[i] = .ok y := by
  induction xs generalizing k ys with
  | nil =>
    simp only [arrayMapFrom, pure, Except.pure, Except.ok.injEq, List.length_nil,
      List.length_eq_zero, Nat.not_lt_zero, IsEmpty.forall_iff, implies_true, and_true]
    exact eq_comm
  | cons x xs ih =>
    unfold arrayMapFrom
    rw [bind_eq_ok]
    constructor
    · rintro ⟨y, hy, h⟩
      rw [bind_eq_ok] at h
      obtain ⟨ys1, hys1, h⟩ := h
      simp only [pure, Except.pure, Except.ok.injEq] at h
      subst h
      obtain ⟨hlen, hall⟩ := (ih (k + 1) ys1).1 hys1
      refine ⟨by simp [hlen], ?_⟩
      intro i hi
      cases i with
      | zero => exact ⟨y, by simp, by simpa using hy⟩
      | succ i =>
        have hi1 : i < xs.length := by simpa using hi
        obtain ⟨r, hr, hm⟩ := hall i hi1
        refine ⟨r, by simpa using hr, ?_⟩
        have : k + (i + 1) = k + 1 + i := by omega
        simpa [this] using hm
    · rintro ⟨hlen, hall⟩
      cases ys with
      | nil => simp at hlen
      | cons y ys1 =>
        obtain ⟨r, hr, hm⟩ := hall 0 (by simp)
        simp only [List.getElem?_cons_zero, Option.some.injEq] at hr
        subst hr
        refine ⟨y, by simpa using hm, ?_⟩
        rw [bind_eq_ok]
        refine ⟨ys1, ?_, rfl⟩
        rw [ih]
        refine ⟨by simpa using hlen, ?_⟩
        intro i hi
        obtain ⟨r, hr, hm⟩ := hall (i + 1) (by simpa using hi)
        refine ⟨r, by simpa using hr, ?_⟩
        have : k + (i + 1) = k + 1 + i := by omega
        simpa [this] using hm

theorem getProp_eq_ok (el : Json) (key : String) (v : Option Json)
    (h : getProp (some el) key = .ok v) :
    el ≠ .null ∧ v = getPropOpt (some el) key := by
  cases el <;> simp_all [getProp, getPropOpt]

theorem getProp_of_ne_null (el : Json) (key : String) (h : el ≠ .null) :
    getProp (some el) key = .ok (getPropOpt (some el) key) := by
  cases el <;> simp_all [getProp, getPropOpt]

theorem mapIncomingQuestions_of_select (incoming : Json) (els : List Json)
    (h : selectElements incoming = .ok (some (.arr els))) :
    mapIncomingQuestions incoming = arrayMapFrom mapElement 0 els := by
  unfold mapIncomingQuestions
  rw [h]
  rfl

theorem selectElements_typed (incoming : Json) (questions : Option Json)
    (hq : getProp (some incoming) "questions" = .ok questions)
    (ht : typedQuestions questions = true) :
    selectElements incoming = .ok questions := by
  unfold selectElements
  rw [hq]
  simp [bind, Except.bind, ht, pure, Except.pure]

theorem selectElements_nested (incoming : Json) (questions pages : Option Json)
    (els : List Json)
    (hq : getProp (some incoming) "questions" = .ok questions)
    (ht : typedQuestions questions = false)
    (hp : getProp (some incoming) "pages" = .ok pages)
    (he : getPropOpt (getIndex0 pages) "elements" = some (.arr els)) :
    selectElements incoming = .ok (some (.arr els)) := by
  unfold selectElements
  rw [hq]
  simp [bind, Except.bind, ht, pure, Except.pure, hp, he, isArray]

theorem mapElement_ok_iff (idx : Nat) (el : Json) (q : Question) :
    mapElement idx el = .ok q ↔
      mapQId idx el = .ok q.qId ∧ mapType el = .ok q.type ∧ mapText idx el = .ok q.text ∧
      el ≠ .null ∧ q.desc = getPropOpt (some el) "description" ∧
      q.req = truthy (getPropOpt (some el) "isRequired") ∧ mapOpts el = .ok q.opts := by
  unfold mapElement
  constructor
  · intro h
    rw [bind_eq_ok] at h
    obtain ⟨a, ha, h⟩ := h
    rw [bind_eq_ok] at h
    obtain ⟨b, hb, h⟩ := h
    rw [bind_eq_ok] at h
    obtain ⟨c, hc, h⟩ := h
    rw [bind_eq_ok] at h
    obtain ⟨d, hd, h⟩ := h
    rw [bind_eq_ok] at h
    obtain ⟨r, hr, h⟩ := h
    rw [bind_eq_ok] at h
    obtain ⟨o, ho, h⟩ := h
    simp only [pure, Except.pure, Except.ok.injEq] at h
    subst h
    obtain ⟨hne, hd⟩ := getProp_eq_ok _ _ _ hd
    obtain ⟨_, hr⟩ := getProp_eq_ok _ _ _ hr
    exact ⟨ha, hb, hc, hne, hd, by rw [hr], ho⟩
  · rintro ⟨ha, hb, hc, hne, hd, hr, ho⟩
    rw [ha, hb, hc, getProp_of_ne_null _ _ hne, getProp_of_ne_null _ _ hne, ho]
    cases q
    simp_all [bind, Except.bind, pure, Except.pure]

theorem mapQId_eq (idx : Nat) (el : Json) (hne : el ≠ .null) :
    mapQId idx el = .ok (match getPropOpt (some el) "name" with
      | some n => if n.truthy then n else .str ("q_" ++ toString (idx + 1))
      | none => .str ("q_" ++ toString (idx + 1))) := by
  unfold mapQId
  rw [getProp_of_ne_null _ _ hne]
  simp only [bind, Except.bind, pure, Except.pure]
  cases getPropOpt (some el) "name" with
  | none => rfl
  | some n => cases hn : n.truthy <;> simp [hn]

theorem mapText_eq (idx : Nat) (el : Json) (hne : el ≠ .null) :
    mapText idx el = .ok (match getPropOpt (some el) "title" with
      | some t =>
        if t.truthy then t
        else match getPropOpt (some el) "text" with
          | some x => if x.truthy then x else .str ("Question " ++ toString (idx + 1))
          | none => .str ("Question " ++ toString (idx + 1))
      | none =>
        match getPropOpt (some el) "text" with
        | some x => if x.truthy then x else .str ("Question " ++ toString (idx + 1))
        | none => .str ("Question " ++ toString (idx + 1))) := by
  unfold mapText
  rw [getProp_of_ne_null _ _ hne]
  simp only [bind, Except.bind, pure, Except.pure]
  rw [getProp_of_ne_null _ _ hne]
  cases getPropOpt (some el) "title" with
  | none =>
    cases getPropOpt (some el) "text" with
    | none => rfl
    | some x => cases hx : x.truthy <;> simp [hx]
  | some t =>
    cases ht : t.truthy
    · cases getPropOpt (some el) "text" with
      | none => simp [ht]
      | some x => cases hx : x.truthy <;> simp [ht, hx]
    · simp [ht]

theorem mapElement_returns_iff (idx : Nat) (el : Json) :
    (∃ q, mapElement idx el = .ok q) ↔
      el ≠ .null ∧ (∃ t, mapType el = .ok t) ∧ (∃ os, mapOpts el = .ok os) := by
  constructor
  · rintro ⟨q, hq⟩
    obtain ⟨-, hty, -, hne, -, -, hos⟩ := (mapElement_ok_iff idx el q).1 hq
    exact ⟨hne, ⟨_, hty⟩, ⟨_, hos⟩⟩
  · rintro ⟨hne, ⟨t, hty⟩, ⟨os, hos⟩⟩
    obtain ⟨a, ha⟩ : ∃ a, mapQId idx el = .ok a := ⟨_, mapQId_eq idx el hne⟩
    obtain ⟨b, hb⟩ : ∃ b, mapText idx el = .ok b := ⟨_, mapText_eq idx el hne⟩
    refine ⟨⟨a, t, b, getPropOpt (some el) "description",
      truthy (getPropOpt (some el) "isRequired"), os⟩, ?_⟩
    rw [mapElement_ok_iff]
    exact ⟨ha, hty, hb, hne, rfl, rfl, hos⟩

theorem mapElement_qId (idx : Nat) (el : Json) (q : Question) (h : mapElement idx el = .ok q) :
    q.qId = match getPropOpt (some el) "name" with
      | some n => if n.truthy then n else .str ("q_" ++ toString (idx + 1))
      | none => .str ("q_" ++ toString (idx + 1)) := by
  obtain ⟨hid, -, -, hne, -⟩ := (mapElement_ok_iff idx el q).1 h
  rw [mapQId_eq idx el hne] at hid
  simpa using hid.symm

theorem mapChoice_obj (i : Nat) (fs : List (String × Json)) :
    mapChoice i (.obj fs) = specOption i fs := by
  unfold mapChoice specOption
  simp only [getProp, bind, Except.bind, pure, Except.pure]
  rcases hv : fs.lookup "value" with _ | v
  · rcases ht : fs.lookup "text" with _ | t
    · rcases hl : fs.lookup "label" with _ | l
      · simp [nullish]
      · cases l <;> simp [nullish, toStr]
    · cases t
      · rcases hl : fs.lookup "label" with _ | l
        · simp [nullish]
        · cases l <;> simp [nullish, toStr]
      all_goals simp [nullish, toStr]
  · cases v
    · rcases ht : fs.lookup "text" with _ | t
      · rcases hl : fs.lookup "label" with _ | l
        · simp [nullish]
        · cases l <;> simp [nullish, toStr]
      · cases t
        · rcases hl : fs.lookup "label" with _ | l
          · simp [nullish]
          · cases l <;> simp [nullish, toStr]
        all_goals simp [nullish, toStr]
    all_goals
      rcases ht : fs.lookup "text" with _ | t
      · rcases hl : fs.lookup "label" with _ | l
        · simp [nullish, toStr]
        · cases l <;> simp [nullish, toStr]
      · cases t
        · rcases hl : fs.lookup "label" with _ | l
          · simp [nullish, toStr]
          · cases l <;> simp [nullish, toStr]
        all_goals simp [nullish, toStr]

theorem digitChar_value (d : Nat) (h : d < 10) : (Nat.digitChar d).toNat - 48 = d := by
  interval_cases d <;> rfl

theorem digitsValue_toDigitsCore (fuel n : Nat) (ds : List Char) (h : n < fuel) :
    digitsValue (Nat.toDigitsCore 10 fuel n ds) 0 = digitsValue ds n := by
  induction fuel generalizing n ds with
  | zero => omega
  | succ fuel ih =>
    unfold Nat.toDigitsCore
    simp only
    split
    · rename_i h0
      have hn : n < 10 := by omega
      simp only [digitsValue, List.foldl_cons, Nat.mul_zero, Nat.zero_add]
      rw [digitChar_value _ (Nat.mod_lt _ (by omega)), Nat.mod_eq_of_lt hn]
    · rename_i h0
      rw [ih (n / 10) _ (by omega)]
      simp only [digitsValue, List.foldl_cons]
      rw [digitChar_value _ (Nat.mod_lt _ (by omega))]
      congr 1
      omega

theorem natRepr_injective (a b : Nat) (h : Nat.repr a = Nat.repr b) : a = b := by
  have h1 : Nat.toDigits 10 a = Nat.toDigits 10 b := by
    have := congrArg String.data h
    simpa [Nat.repr, List.asString] using this
  have ha := digitsValue_toDigitsCore (a + 1) a [] (by omega)
  have hb := digitsValue_toDigitsCore (b + 1) b [] (by omega)
  unfold Nat.toDigits at h1
  rw [h1, hb] at ha
  simpa [digitsValue] using ha.symm

theorem positional_inj (p : String) (a b : Nat)
    (h : p ++ toString (a + 1) = p ++ toString (b + 1)) : a = b := by
  have h1 : (p ++ toString (a + 1)).data = (p ++ toString (b + 1)).data := by rw [h]
  simp only [String.data_append, List.append_cancel_left_eq] at h1
  have h2 : Nat.repr (a + 1) = Nat.repr (b + 1) := String.ext h1
  have := natRepr_injective _ _ h2
  omega

/-! ### The delete authorisation rule (C1, C2) -/

theorem authorised_iff (user : Option User) (form : Form) :
    Authorised user form ↔
      (isOwner user form || legacyNoOwner form || admin user) = true := by
  unfold Authorised isOwner legacyNoOwner admin
  cases user with
  | none => cases hc : form.createdBy <;> simp
  | some u =>
    cases hc : form.createdBy with
    | none => simp
    | some c =>
      simp only [Option.some.injEq, exists_eq_left', Option.isNone_some, Bool.or_false,
        Bool.or_eq_true, beq_iff_eq, false_or, reduceCtorEq]

/-- C1: for a well-formed identifier of an existing form and any caller
(possibly absent), `deleteForm` returns `true` exactly when the caller's id
equals the form's `createdBy`, or the form has no `createdBy`, or the caller's
role is `admin`; in every other case it fails with an `ApiError` of status 403. -/
theorem deleteForm_authorisation (isValid : String → Bool) (faults : Faults) (db : Db)
    (id : String) (user : Option User) (form : Form)
    (hvalid : isValid id = true) (hfound : findById db id = some form) :
    ((deleteForm isValid faults db id user).1 = .ok true ↔ Authorised user form) ∧
    (¬ Authorised user form →
      (deleteForm isValid faults db id user).1 =
        .error ⟨"Not authorized to delete this form", 403⟩) := by
  rw [authorised_iff]
  unfold deleteForm
  simp only [hvalid, hfound, Bool.not_true, Bool.false_eq_true, if_false]
  cases isOwner user form <;> cases legacyNoOwner form <;> cases admin user <;> simp

theorem deleteForm_authorisation_witness :
    (deleteForm sampleValid ⟨false, false⟩ sampleDb "f1" (some ⟨some "a1", none⟩)).1 = .ok true ∧
    (deleteForm sampleValid ⟨false, false⟩ sampleDb "f1" (some ⟨some "b2", some "user"⟩)).1 =
      .error ⟨"Not authorized to delete this form", 403⟩ :=
  ⟨(deleteForm_authorisation sampleValid ⟨false, false⟩ sampleDb "f1" (some ⟨some "a1", none⟩)
      ⟨"f1", some "a1", none⟩ (by decide) (by decide)).1.2
      (Or.inl ⟨⟨some "a1", none⟩, rfl, rfl⟩),
   (deleteForm_authorisation sampleValid ⟨false, false⟩ sampleDb "f1"
      (some ⟨some "b2", some "user"⟩) ⟨"f1", some "a1", none⟩ (by decide) (by decide)).2
      (by
        rw [authorised_iff]
        decide)⟩

/-- C2: whenever `deleteForm` fails, the failure is one of 400 (malformed id),
404 (absent form) or 403 (not authorised), no deletion is issued, and the
stored forms and responses are exactly what they were before the call. -/
theorem deleteForm_failure_preserves_store (isValid : String → Bool) (faults : Faults)
    (db : Db) (id : String) (user : Option User) (e : ApiError)
    (hfail : (deleteForm isValid faults db id user).1 = .error e) :
    (e.status = 400 ∨ e.status = 404 ∨ e.status = 403) ∧
    (deleteForm isValid faults db id user).2.forms = db.forms ∧
    (deleteForm isValid faults db id user).2.responses = db.responses ∧
    ((deleteForm isValid faults db id user).2.log = db.log ∨
      (deleteForm isValid faults db id user).2.log = db.log ++ [DbOp.findById id]) := by
  unfold deleteForm at hfail ⊢
  by_cases hv : isValid id = true
  · simp only [hv, Bool.not_true, Bool.false_eq_true, if_false] at hfail ⊢
    cases hf : findById db id with
    | none =>
      simp only [hf] at hfail ⊢
      cases hfail
      simp
    | some form =>
      simp only [hf] at hfail ⊢
      split at hfail
      · rename_i hc
        simp only [hc, if_true]
        cases hfail
        simp
      · cases hfail
  · simp only [Bool.not_eq_true] at hv
    simp only [hv, Bool.not_false, if_true] at hfail ⊢
    cases hfail
    simp

-- The end-to-end case: user `b2` (not an admin) tries to delete the form owned
-- by `a1`; the call fails with 403 and the form and its responses remain.
theorem deleteForm_failure_preserves_store_witness :
    (deleteForm sampleValid ⟨false, false⟩ sampleDb "f1" (some ⟨some "b2", some "user"⟩)).1 =
      .error ⟨"Not authorized to delete this form", 403⟩ ∧
    (deleteForm sampleValid ⟨false, false⟩ sampleDb "f1"
      (some ⟨some "b2", some "user"⟩)).2.forms = sampleDb.forms ∧
    (deleteForm sampleValid ⟨false, false⟩ sampleDb "f1"
      (some ⟨some "b2", some "user"⟩)).2.responses = sampleDb.responses :=
  ⟨by decide,
   (deleteForm_failure_preserves_store sampleValid ⟨false, false⟩ sampleDb "f1"
      (some ⟨some "b2", some "user"⟩) ⟨"Not authorized to delete this form", 403⟩ (by decide)).2.1,
   (deleteForm_failure_preserves_store sampleValid ⟨false, false⟩ sampleDb "f1"
      (some ⟨some "b2", some "user"⟩) ⟨"Not authorized to delete this form", 403⟩ (by decide)).2.2.1⟩

/-! ### Selection of the source array (C3, C4) -/

-- The first element of `questions` has a `type` field that is the empty string:
-- the nested `pages[0].elements` array is normalised instead, giving two
-- questions for a `questions` array of one element.
theorem typed_first_counterexample :
    getProp (some untypedFirstInput) "questions" =
      .ok (some (.arr [.obj [("type", .str ""), ("name", .str "a")]])) ∧
    getPropOpt (some (.obj [("type", .str ""), ("name", .str "a")])) "type" = some (.str "") ∧
    mapIncomingQuestions untypedFirstInput =
      .ok [⟨.str "b", .json (.str "text"), .str "Question 1", none, false, []⟩,
           ⟨.str "c", .json (.str "text"), .str "Question 2", none, false, []⟩] ∧
    (mapIncomingQuestions untypedFirstInput).map List.length = .ok 2 ∧
    mapIncomingQuestions untypedFirstInput ≠
      arrayMapFrom mapElement 0 [.obj [("type", .str ""), ("name", .str "a")]] := by
  decide

/-- C3 (amended): when `questions` is an array whose first element has a truthy
`type`, `mapIncomingQuestions` maps exactly that array, whatever `pages` holds:
its outcome is that of mapping `questions` element by element, so a list `qs` is
returned exactly when it has the length of `questions` and its `i`-th question
is the mapping of the `i`-th element at position `i`. -/
theorem mapIncomingQuestions_typed_questions (incoming q : Json) (rest : List Json)
    (hq : getProp (some incoming) "questions" = .ok (some (.arr (q :: rest))))
    (ht : truthy (getPropOpt (some q) "type") = true) :
    mapIncomingQuestions incoming = arrayMapFrom mapElement 0 (q :: rest) ∧
    ∀ qs, mapIncomingQuestions incoming = .ok qs ↔
      qs.length = (q :: rest).length ∧
      ∀ i (h : i < (q :: rest).length),
        ∃ r, qs[i]? = some r ∧ mapElement i (q :: rest)[i] = .ok r := by
  have hsel := selectElements_typed incoming _ hq (by simpa [typedQuestions] using ht)
  have hmap := mapIncomingQuestions_of_select incoming _ hsel
  refine ⟨hmap, fun qs => ?_⟩
  rw [hmap, arrayMapFrom_ok_iff]
  simp

theorem mapIncomingQuestions_typed_questions_witness :
    getProp (some surveyInput) "questions" = .ok (some (.arr [surveyElement])) ∧
    truthy (getPropOpt (some surveyElement) "type") = true ∧
    mapIncomingQuestions surveyInput = .ok [surveyQuestion] :=
  ⟨by decide, by decide,
   ((mapIncomingQuestions_typed_questions surveyInput surveyElement [] (by decide)
      (by decide)).2 [surveyQuestion]).2 ⟨by decide, by decide⟩⟩

/-- C4: when `questions` is not an array with a typed first element and
`pages[0].elements` is an array, `mapIncomingQuestions` maps that nested array:
its outcome is that of mapping the array element by element, so a list `qs` is
returned exactly when it has the length of `pages[0].elements` and its `i`-th
question is the mapping of the `i`-th element at position `i`. -/
theorem mapIncomingQuestions_nested_elements (incoming : Json) (questions pages : Option Json)
    (els : List Json)
    (hq : getProp (some incoming) "questions" = .ok questions)
    (ht : typedQuestions questions = false)
    (hp : getProp (some incoming) "pages" = .ok pages)
    (he : getPropOpt (getIndex0 pages) "elements" = some (.arr els)) :
    mapIncomingQuestions incoming = arrayMapFrom mapElement 0 els ∧
    ∀ qs, mapIncomingQuestions incoming = .ok qs ↔
      qs.length = els.length ∧
      ∀ i (h : i < els.length), ∃ r, qs[i]? = some r ∧ mapElement i els[i] = .ok r := by
  have hsel := selectElements_nested incoming questions pages els hq ht hp he
  have hmap := mapIncomingQuestions_of_select incoming _ hsel
  refine ⟨hmap, fun qs => ?_⟩
  rw [hmap, arrayMapFrom_ok_iff]
  simp

theorem mapIncomingQuestions_nested_elements_witness :
    getProp (some pagesInput) "questions" = .ok none ∧
    mapIncomingQuestions pagesInput =
      .ok [⟨.str "b", .json (.str "textarea"), .str "Question 1", none, false, []⟩] :=
  ⟨by decide,
   ((mapIncomingQuestions_nested_elements pagesInput none
      (some (.arr [.obj [("elements",
        .arr [.obj [("name", .str "b"), ("type", .str "comment")]])]]))
      [.obj [("name", .str "b"), ("type", .str "comment")]]
      (by decide) (by decide) (by decide) (by decide)).2 _).2
    ⟨by decide, by decide⟩⟩

/-! ### The question type (C5, C9) -/

/-- C5: evaluation at a source type that is no key of the lookup table: for
`"constructor"` the read `typeMap[el.type]` finds the member inherited from
`Object.prototype`, which is truthy, so the normalised type is that member:
neither `"text"` nor any other of the nine values. -/
theorem mapType_inherited_member :
    getPropOpt (some (.obj [("type", .str "constructor")])) "type" = some (.str "constructor") ∧
    typeMap.lookup "constructor" = none ∧
    mapIncomingQuestions inheritedTypeInput =
      .ok [⟨.str "q_1", .inherited "constructor", .str "Question 1", none, false, []⟩] ∧
    JSVal.inherited "constructor" ∉ questionTypes ∧
    JSVal.inherited "constructor" ≠ .json (.str "text") := by
  decide

/-- C9: for an element whose `type` is one of the nine keys of the lookup table,
the normalised type is the table's value: `comment` gives `textarea`,
`radiogroup` gives `radio`, and `text`, `checkbox`, `dropdown`, `rating`,
`scale`, `date` and `email` give themselves. The type expression itself never
throws on such an element. -/
theorem mapType_known_key (idx : Nat) (el : Json) (k v : String)
    (hk : getPropOpt (some el) "type" = some (.str k))
    (hv : (k, v) ∈ [("text", "text"), ("comment", "textarea"), ("radiogroup", "radio"),
      ("checkbox", "checkbox"), ("dropdown", "dropdown"), ("rating", "rating"),
      ("scale", "scale"), ("date", "date"), ("email", "email")]) :
    mapType el = .ok (.json (.str v)) ∧
    ∀ q, mapElement idx el = .ok q → q.type = .json (.str v) := by
  have hne : el ≠ .null := by
    rintro rfl
    simp [getPropOpt] at hk
  have hty : mapType el = .ok (.json (.str v)) := by
    unfold mapType
    rw [getProp_of_ne_null _ _ hne, hk]
    simp only [List.mem_cons, Prod.mk.injEq, List.mem_singleton, List.not_mem_nil, or_false] at hv
    rcases hv with h | h | h | h | h | h | h | h | h <;> obtain ⟨rfl, rfl⟩ := h <;> decide
  refine ⟨hty, fun q hq => ?_⟩
  have := ((mapElement_ok_iff idx el q).1 hq).2.1
  rw [hty] at this
  simpa using this.symm

theorem mapType_known_key_witness :
    mapElement 0 surveyElement = .ok surveyQuestion ∧
    mapType surveyElement = .ok (.json (.str "radio")) ∧
    surveyQuestion.type = .json (.str "radio") :=
  ⟨by decide,
   (mapType_known_key 0 surveyElement "radiogroup" "radio" (by decide) (by decide)).1,
   (mapType_known_key 0 surveyElement "radiogroup" "radio" (by decide) (by decide)).2
     surveyQuestion (by decide)⟩

/-! ### Uniqueness of `qId` (C6) -/

-- Two questions with the same `name` keep it: both normalised questions have
-- the `qId` `"a"`.
theorem qIds_duplicate_counterexample :
    mapIncomingQuestions duplicateNameInput =
      .ok [⟨.str "a", .json (.str "text"), .str "Question 1", none, false, []⟩,
           ⟨.str "a", .json (.str "text"), .str "Question 2", none, false, []⟩] ∧
    ¬ ([⟨.str "a", .json (.str "text"), .str "Question 1", none, false, []⟩,
        ⟨.str "a", .json (.str "text"), .str "Question 2", none, false, []⟩].map
          (fun q : Question => q.qId)).Nodup := by
  decide

/-- C6 (amended): the `qId` values of the returned questions are pairwise
distinct whenever the truthy names of the source elements are pairwise distinct
and none of them is the positional id `q_<j+1>` of an element at position `j`
without a truthy name; in particular when no element has a name. -/
theorem qIds_nodup (incoming : Json) (els : List Json) (qs : List Question)
    (hsel : selectElements incoming = .ok (some (.arr els)))
    (hqs : mapIncomingQuestions incoming = .ok qs)
    (hdistinct : ∀ (i j : Nat) (n m : Json), i < j → getPropOpt els[i]? "name" = some n →
      getPropOpt els[j]? "name" = some m → n.truthy = true → m.truthy = true → n ≠ m)
    (hfresh : ∀ (i j : Nat) (n : Json), getPropOpt els[i]? "name" = some n → n.truthy = true →
      j < els.length → truthy (getPropOpt els[j]? "name") = false →
      n ≠ .str ("q_" ++ toString (j + 1))) :
    (qs.map (fun q => q.qId)).Nodup := by
  rw [mapIncomingQuestions_of_select incoming els hsel, arrayMapFrom_ok_iff] at hqs
  obtain ⟨hlen, hall⟩ := hqs
  rw [List.nodup_iff_getElem?_ne_getElem?]
  intro i j hij hj
  simp only [List.length_map] at hj
  have hj' : j < els.length := by omega
  have hi' : i < els.length := by omega
  obtain ⟨qi, hqi, hmi⟩ := hall i hi'
  obtain ⟨qj, hqj, hmj⟩ := hall j hj'
  simp only [Nat.zero_add] at hmi hmj
  simp only [List.getElem?_map, hqi, hqj, Option.map_some', ne_eq, Option.some.injEq]
  have ei := mapElement_qId _ _ _ hmi
  have ej := mapElement_qId _ _ _ hmj
  have hgi : els[i]? = some els[i] := List.getElem?_eq_getElem hi'
  have hgj : els[j]? = some els[j] := List.getElem?_eq_getElem hj'
  rw [ei, ej]
  intro heq
  rcases hni : getPropOpt (some els[i]) "name" with _ | n
  · rw [hni] at heq
    rcases hnj : getPropOpt (some els[j]) "name" with _ | m
    · rw [hnj] at heq
      simp only [Json.str.injEq] at heq
      have := positional_inj _ _ _ heq
      omega
    · rw [hnj] at heq
      simp only at heq
      by_cases hm : m.truthy = true
      · simp only [hm, if_true] at heq
        exact hfresh j i m (by rw [hgj]; exact hnj) hm hi' (by rw [hgi, hni]; rfl) heq.symm
      · simp only [hm, Bool.false_eq_true, if_false, Json.str.injEq] at heq
        have := positional_inj _ _ _ heq
        omega
  · rw [hni] at heq
    simp only at heq
    by_cases hn : n.truthy = true
    · simp only [hn, if_true] at heq
      rcases hnj : getPropOpt (some els[j]) "name" with _ | m
      · rw [hnj] at heq
        exact hfresh i j n (by rw [hgi]; exact hni) hn hj' (by rw [hgj, hnj]; rfl) heq
      · rw [hnj] at heq
        simp only at heq
        by_cases hm : m.truthy = true
        · simp only [hm, if_true] at heq
          exact hdistinct i j n m hij (by rw [hgi]; exact hni) (by rw [hgj]; exact hnj) hn hm heq
        · simp only [hm, Bool.false_eq_true, if_false] at heq
          refine hfresh i j n (by rw [hgi]; exact hni) hn hj' ?_ heq
          rw [hgj, hnj]
          simpa [truthy] using hm
    · simp only [hn, Bool.false_eq_true, if_false] at heq
      rcases hnj : getPropOpt (some els[j]) "name" with _ | m
      · rw [hnj] at heq
        simp only [Json.str.injEq] at heq
        have := positional_inj _ _ _ heq
        omega
      · rw [hnj] at heq
        simp only at heq
        by_cases hm : m.truthy = true
        · simp only [hm, if_true] at heq
          refine hfresh j i m (by rw [hgj]; exact hnj) hm hi' ?_ heq.symm
          rw [hgi, hni]
          simpa [truthy] using hn
        · simp only [hm, Bool.false_eq_true, if_false, Json.str.injEq] at heq
          have := positional_inj _ _ _ heq
          omega

theorem mixedNames_none (k : Nat) (hk : 1 ≤ k) :
    getPropOpt mixedNameElements[k]? "name" = none := by
  rcases k with _ | _ | k
  · omega
  · decide
  · simp [mixedNameElements, getPropOpt]

theorem qIds_nodup_witness :
    mapIncomingQuestions mixedNameInput =
      .ok [⟨.str "a", .json (.str "text"), .str "Question 1", none, false, []⟩,
           ⟨.str "q_2", .json (.str "date"), .str "Question 2", none, false, []⟩] ∧
    ([⟨.str "a", .json (.str "text"), .str "Question 1", none, false, []⟩,
      ⟨.str "q_2", .json (.str "date"), .str "Question 2", none, false, []⟩].map
        (fun q : Question => q.qId)).Nodup :=
  ⟨by decide,
   qIds_nodup mixedNameInput mixedNameElements
    [⟨.str "a", .json (.str "text"), .str "Question 1", none, false, []⟩,
     ⟨.str "q_2", .json (.str "date"), .str "Question 2", none, false, []⟩]
    (by decide) (by decide)
    (by
      intro i j n m hij _ hm
      rw [mixedNames_none j (by omega)] at hm
      cases hm)
    (by
      intro i j n hn _ hj _
      rcases i with _ | i
      · have h0 : getPropOpt mixedNameElements[0]? "name" = some (.str "a") := by decide
        rw [h0] at hn
        cases hn
        have hj2 : j < 2 := hj
        interval_cases j <;> decide
      · rw [mixedNames_none (i + 1) (by omega)] at hn
        cases hn)⟩

/-! ### Failure on malformed entries (C7) -/

/-- C7: evaluation at a `questions` array holding `null` after a typed element,
and at a question with a `null` choice: the callback reads a property of
`null`, and `mapIncomingQuestions` throws a `TypeError` instead of returning a
list. -/
theorem mapIncomingQuestions_null_element_throws :
    mapIncomingQuestions nullElementInput = .error .typeError ∧
    mapIncomingQuestions nullChoiceInput = .error .typeError := by
  decide

/-! ### The option list (C8) -/

/-- C8: the option list is the element-wise mapping of `choices`. When
`choices` is an array, `opts` is the outcome of mapping it entry by entry: a
list is returned exactly when it has the length of `choices` and its `i`-th
option is the mapping of the `i`-th entry at position `i`. A string entry gives
the decimal of `i + 1` and the string; an object entry gives what `specOption`
states; and when `choices` is absent or not an array the list is empty. -/
theorem mapOpts_elementwise (idx : Nat) (el : Json) :
    (∀ cs, getPropOpt (some el) "choices" = some (.arr cs) →
      mapOpts el = arrayMapFrom mapChoice 0 cs ∧
      ∀ os, mapOpts el = .ok os ↔
        os.length = cs.length ∧
        ∀ i (h : i < cs.length), ∃ o, os[i]? = some o ∧ mapChoice i cs[i] = .ok o) ∧
    (∀ i s, mapChoice i (.str s) = .ok ⟨toString (i + 1), s⟩) ∧
    (∀ i fs, mapChoice i (.obj fs) = specOption i fs) ∧
    (el ≠ .null → isArray (getPropOpt (some el) "choices") = false → mapOpts el = .ok []) ∧
    (∀ q, mapElement idx el = .ok q → mapOpts el = .ok q.opts) := by
  refine ⟨?_, fun _ _ => rfl, mapChoice_obj, ?_, ?_⟩
  · intro cs hcs
    have hne : el ≠ .null := by
      rintro rfl
      simp [getPropOpt] at hcs
    have hmap : mapOpts el = arrayMapFrom mapChoice 0 cs := by
      unfold mapOpts
      rw [getProp_of_ne_null _ _ hne, hcs]
      rfl
    refine ⟨hmap, fun os => ?_⟩
    rw [hmap, arrayMapFrom_ok_iff]
    simp
  · intro hne hna
    unfold mapOpts
    rw [getProp_of_ne_null _ _ hne]
    rcases hc : getPropOpt (some el) "choices" with _ | c
    · rfl
    · rw [hc] at hna
      cases c <;> first | rfl | simp [isArray] at hna
  · intro q hq
    exact ((mapElement_ok_iff idx el q).1 hq).2.2.2.2.2.2

theorem mapOpts_elementwise_witness :
    getPropOpt (some surveyElement) "choices" = some (.arr [.str "Yes", .str "No"]) ∧
    mapOpts surveyElement = .ok [⟨"1", "Yes"⟩, ⟨"2", "No"⟩] ∧
    mapOpts emptyNameElement = .ok [] ∧
    mapOpts surveyElement = .ok surveyQuestion.opts :=
  ⟨by decide,
   (((mapOpts_elementwise 0 surveyElement).1 [.str "Yes", .str "No"] (by decide)).2
      [⟨"1", "Yes"⟩, ⟨"2", "No"⟩]).2 ⟨by decide, by decide⟩,
   (mapOpts_elementwise 0 emptyNameElement).2.2.2.1 (by decide) (by decide),
   (mapOpts_elementwise 0 surveyElement).2.2.2.2 surveyQuestion (by decide)⟩

/-! ### The scalar fields (C10) -/

-- A `name` that is present and falsy (the empty string, the number 0) is
-- replaced by the positional id.
theorem mapElement_empty_name_counterexample :
    getPropOpt (some emptyNameElement) "name" = some (.str "") ∧
    mapElement 0 emptyNameElement =
      .ok ⟨.str "q_1", .json (.str "text"), .str "Age", none, false, []⟩ ∧
    Json.str "q_1" ≠ Json.str "" ∧
    mapElement 3 (.obj [("name", .num "0")]) =
      .ok ⟨.str "q_4", .json (.str "text"), .str "Question 4", none, false, []⟩ := by
  decide

/-- C10 (amended): the question normalised from an element at position `idx`
has `qId` equal to the element's `name` when that is truthy, and `q_<idx+1>`
when it is absent or falsy; `text` equal to `title` when truthy, else `text`
when truthy, else `Question <idx+1>`; `desc` equal to `description` unchanged;
and `req` equal to `Boolean(isRequired)`, false when absent. -/
theorem mapElement_scalar_fields (idx : Nat) (el : Json) (q : Question)
    (h : mapElement idx el = .ok q) :
    (∀ n, getPropOpt (some el) "name" = some n → n.truthy = true → q.qId = n) ∧
    (truthy (getPropOpt (some el) "name") = false →
      q.qId = .str ("q_" ++ toString (idx + 1))) ∧
    (∀ t, getPropOpt (some el) "title" = some t → t.truthy = true → q.text = t) ∧
    (∀ x, truthy (getPropOpt (some el) "title") = false →
      getPropOpt (some el) "text" = some x → x.truthy = true → q.text = x) ∧
    (truthy (getPropOpt (some el) "title") = false →
      truthy (getPropOpt (some el) "text") = false →
      q.text = .str ("Question " ++ toString (idx + 1))) ∧
    q.desc = getPropOpt (some el) "description" ∧
    q.req = truthy (getPropOpt (some el) "isRequired") ∧
    (getPropOpt (some el) "isRequired" = none → q.req = false) := by
  obtain ⟨hid, -, htext, hne, hdesc, hreq, -⟩ := (mapElement_ok_iff idx el q).1 h
  rw [mapQId_eq idx el hne] at hid
  rw [mapText_eq idx el hne] at htext
  simp only [Except.ok.injEq] at hid htext
  refine ⟨?_, ?_, ?_, ?_, ?_, hdesc, hreq, ?_⟩
  · intro n hn ht
    rw [hn] at hid
    simpa [ht] using hid.symm
  · intro hf
    cases hn : getPropOpt (some el) "name" with
    | none => rw [hn] at hid; exact hid.symm
    | some n =>
      rw [hn] at hid hf
      simp only [truthy] at hf
      simpa [hf] using hid.symm
  · intro t ht htt
    rw [ht] at htext
    simpa [htt] using htext.symm
  · intro x hf hx hxt
    cases ht : getPropOpt (some el) "title" with
    | none =>
      rw [ht, hx] at htext
      simpa [hxt] using htext.symm
    | some t =>
      rw [ht] at htext hf
      simp only [truthy] at hf
      rw [hx] at htext
      simpa [hf, hxt] using htext.symm
  · intro hf hg
    cases ht : getPropOpt (some el) "title" with
    | none =>
      rw [ht] at htext
      cases hx : getPropOpt (some el) "text" with
      | none => rw [hx] at htext; exact htext.symm
      | some x =>
        rw [hx] at htext hg
        simp only [truthy] at hg
        simpa [hg] using htext.symm
    | some t =>
      rw [ht] at htext hf
      simp only [truthy] at hf
      cases hx : getPropOpt (some el) "text" with
      | none => rw [hx] at htext; simpa [hf] using htext.symm
      | some x =>
        rw [hx] at htext hg
        simp only [truthy] at hg
        simpa [hf, hg] using htext.symm
  · intro hn
    rw [hreq, hn]
    rfl

theorem mapElement_scalar_fields_witness :
    mapElement 0 surveyElement = .ok surveyQuestion ∧
    surveyQuestion.qId = .str "q1" ∧
    surveyQuestion.text = .str ("Question " ++ toString (0 + 1)) ∧
    surveyQuestion.req = true :=
  ⟨by decide,
   (mapElement_scalar_fields 0 surveyElement surveyQuestion (by decide)).1 (.str "q1")
     (by decide) (by decide),
   (mapElement_scalar_fields 0 surveyElement surveyQuestion (by decide)).2.2.2.2.1
     (by decide) (by decide),
   (mapElement_scalar_fields 0 surveyElement surveyQuestion (by decide)).2.2.2.2.2.2.1⟩

/-! ### The persisted `isPublished` flag (C11) -/

theorem mapIncomingQuestions_ne_null (incoming : Json) (qs : List Question)
    (h : mapIncomingQuestions incoming = .ok qs) : incoming ≠ .null := by
  rintro rfl
  simp [mapIncomingQuestions, selectElements, getProp, bind, Except.bind] at h

theorem createForm_eq (incoming : Json) (user : Option User) (qs : List Question)
    (h : mapIncomingQuestions incoming = .ok qs) :
    createForm incoming user = .ok
      { title := getPropOpt (some incoming) "title"
        description := getPropOpt (some incoming) "description"
        settings := getPropOpt (some incoming) "settings"
        isPublished := strictlyTrue (getPropOpt (some incoming) "isPublished")
        questions := qs
        createdBy := payloadCreatedBy user } := by
  have hne := mapIncomingQuestions_ne_null incoming qs h
  unfold createForm
  rw [h]
  simp only [bind, Except.bind, getProp_of_ne_null _ _ hne, pure, Except.pure]

theorem strictlyTrue_iff (v : Option Json) : strictlyTrue v = true ↔ v = some (.bool true) := by
  rcases v with _ | v
  · simp [strictlyTrue]
  · cases v with
    | bool b => cases b <;> simp [strictlyTrue]
    | _ => simp [strictlyTrue]

/-- C11: the `isPublished` field of the payload `createForm` persists is true
if and only if the body's `isPublished` is exactly the boolean `true`; every
other value (absent, the string `"true"`, the number 1, an object) gives false.
A payload is persisted exactly when the questions normalise. -/
theorem createForm_isPublished (incoming : Json) (user : Option User) :
    ((∃ p, createForm incoming user = .ok p) ↔ ∃ qs, mapIncomingQuestions incoming = .ok qs) ∧
    ∀ p, createForm incoming user = .ok p →
      (p.isPublished = true ↔ getPropOpt (some incoming) "isPublished" = some (.bool true)) ∧
      (getPropOpt (some incoming) "isPublished" ≠ some (.bool true) → p.isPublished = false) := by
  have hq : ∀ p, createForm incoming user = .ok p → ∃ qs, mapIncomingQuestions incoming = .ok qs := by
    intro p hp
    unfold createForm at hp
    rw [bind_eq_ok] at hp
    obtain ⟨qs, hqs, -⟩ := hp
    exact ⟨qs, hqs⟩
  refine ⟨⟨fun ⟨p, hp⟩ => hq p hp, fun ⟨qs, hqs⟩ => ⟨_, createForm_eq incoming user qs hqs⟩⟩, ?_⟩
  intro p hp
  obtain ⟨qs, hqs⟩ := hq p hp
  rw [createForm_eq incoming user qs hqs] at hp
  simp only [Except.ok.injEq] at hp
  subst hp
  refine ⟨strictlyTrue_iff _, fun hne => ?_⟩
  cases hs : strictlyTrue (getPropOpt (some incoming) "isPublished")
  · rfl
  · exact absurd ((strictlyTrue_iff _).1 hs) hne

theorem createForm_isPublished_witness :
    (∃ p, createForm (publishedInput (.bool true)) none = .ok p ∧ p.isPublished = true) ∧
    (∃ p, createForm (publishedInput (.str "true")) none = .ok p ∧ p.isPublished = false) ∧
    (∃ p, createForm (publishedInput (.num "1")) none = .ok p ∧ p.isPublished = false) ∧
    (∃ p, createForm (publishedInput (.obj [])) none = .ok p ∧ p.isPublished = false) ∧
    (∃ p, createForm surveyInput none = .ok p ∧ p.isPublished = false) :=
  ⟨⟨_, createForm_eq _ none [surveyQuestion] (by decide),
      ((createForm_isPublished (publishedInput (.bool true)) none).2 _
        (createForm_eq _ none [surveyQuestion] (by decide))).1.2 (by decide)⟩,
   ⟨_, createForm_eq _ none [surveyQuestion] (by decide),
      ((createForm_isPublished (publishedInput (.str "true")) none).2 _
        (createForm_eq _ none [surveyQuestion] (by decide))).2 (by decide)⟩,
   ⟨_, createForm_eq _ none [surveyQuestion] (by decide),
      ((createForm_isPublished (publishedInput (.num "1")) none).2 _
        (createForm_eq _ none [surveyQuestion] (by decide))).2 (by decide)⟩,
   ⟨_, createForm_eq _ none [surveyQuestion] (by decide),
      ((createForm_isPublished (publishedInput (.obj [])) none).2 _
        (createForm_eq _ none [surveyQuestion] (by decide))).2 (by decide)⟩,
   ⟨_, createForm_eq _ none [surveyQuestion] (by decide),
      ((createForm_isPublished surveyInput none).2 _
        (createForm_eq _ none [surveyQuestion] (by decide))).2 (by decide)⟩⟩

/-! ### Retrieval of a form (C12, C13) and the cascade of `deleteForm` (C14) -/

theorem filter_ne_key_of_lookup_none (fs : List (String × Json)) (key : String)
    (h : fs.lookup key = none) : fs.filter (fun kv => !(kv.1 == key)) = fs := by
  induction fs with
  | nil => rfl
  | cons kv fs ih =>
    obtain ⟨k, v⟩ := kv
    by_cases hk : key = k
    · subst hk
      simp [List.lookup] at h
    · have hk' : (key == k) = false := by simpa using hk
      have hk2 : (k == key) = false := by simpa using fun e : k = key => hk e.symm
      simp only [List.lookup, hk'] at h
      simp [List.filter, hk2, ih h]

theorem lookup_filter_ne_key (fs : List (String × Json)) (key k : String) (hk : k ≠ key) :
    (fs.filter (fun kv => !(kv.1 == key))).lookup k = fs.lookup k := by
  induction fs with
  | nil => rfl
  | cons kv fs ih =>
    obtain ⟨a, v⟩ := kv
    by_cases ha : a = key
    · subst ha
      have : (k == a) = false := by simpa using hk
      simp [List.filter, List.lookup, this, ih]
    · have ha' : (a == key) = false := by simpa using ha
      simp only [List.filter, ha', Bool.not_false]
      by_cases hka : k = a
      · subst hka
        simp [List.lookup]
      · have : (k == a) = false := by simpa using hka
        simp [List.lookup, this, ih]

theorem lookup_filter_key (fs : List (String × Json)) (key : String) :
    (fs.filter (fun kv => !(kv.1 == key))).lookup key = none := by
  induction fs with
  | nil => rfl
  | cons kv fs ih =>
    obtain ⟨a, v⟩ := kv
    by_cases ha : a = key
    · subst ha
      simpa [List.filter] using ih
    · have ha' : (a == key) = false := by simpa using ha
      have ha2 : (key == a) = false := by simpa using fun e : key = a => ha e.symm
      simp only [List.filter, ha', Bool.not_false, List.lookup, ha2]
      exact ih

theorem withoutRedirectUrl_of_none (form : Form)
    (h : getPropOpt form.settings "redirectUrl" = none) : withoutRedirectUrl form = form := by
  obtain ⟨i, c, s⟩ := form
  unfold withoutRedirectUrl
  rcases s with _ | s
  · rfl
  · cases s with
    | obj fs =>
      simp only [getPropOpt] at h
      simp [filter_ne_key_of_lookup_none fs _ h]
    | _ => rfl

theorem withoutRedirectUrl_getProp (form : Form) (k : String) (hk : k ≠ "redirectUrl") :
    getPropOpt (withoutRedirectUrl form).settings k = getPropOpt form.settings k := by
  obtain ⟨i, c, s⟩ := form
  unfold withoutRedirectUrl
  rcases s with _ | s
  · rfl
  · cases s with
    | obj fs => simp [getPropOpt, lookup_filter_ne_key fs _ k hk]
    | _ => rfl

-- The stored form has a `settings.redirectUrl`; the form `getForm` returns has
-- lost it, so it is not the stored form.
theorem getForm_projection_counterexample :
    sampleValid "f3" = true ∧
    findById redirectDb "f3" = some redirectForm ∧
    (getForm sampleValid redirectDb "f3").1 =
      .ok ⟨"f3", some "a1", some (.obj [("requiresLogin", .bool true)])⟩ ∧
    (getForm sampleValid redirectDb "f3").1 ≠ .ok redirectForm := by
  decide

/-- C12 (amended): `getForm` with a malformed identifier fails with status 400
and leaves the store and its trace untouched (no query); with a well-formed
identifier that matches no stored form it fails with status 404; and with a
well-formed identifier of a stored form it returns that form without the
`redirectUrl` of its settings: same identifier, same creator, every other
setting unchanged, and the stored form itself when it has no `redirectUrl`. -/
theorem getForm_outcomes (isValid : String → Bool) (db : Db) (id : String) :
    (isValid id = false → getForm isValid db id = (.error ⟨"Invalid form id", 400⟩, db)) ∧
    (isValid id = true → findById db id = none →
      (getForm isValid db id).1 = .error ⟨"Form not found", 404⟩) ∧
    (∀ form, isValid id = true → findById db id = some form →
      (getForm isValid db id).1 = .ok (withoutRedirectUrl form) ∧
      (withoutRedirectUrl form)._id = form._id ∧
      (withoutRedirectUrl form).createdBy = form.createdBy ∧
      getPropOpt (withoutRedirectUrl form).settings "redirectUrl" = none ∧
      (∀ k, k ≠ "redirectUrl" →
        getPropOpt (withoutRedirectUrl form).settings k = getPropOpt form.settings k) ∧
      (getPropOpt form.settings "redirectUrl" = none → withoutRedirectUrl form = form)) := by
  refine ⟨?_, ?_, ?_⟩
  · intro h
    simp [getForm, h]
  · intro h hf
    simp [getForm, h, hf]
  · intro form h hf
    refine ⟨by simp [getForm, h, hf], rfl, rfl, ?_, withoutRedirectUrl_getProp form,
      withoutRedirectUrl_of_none form⟩
    obtain ⟨i, c, s⟩ := form
    unfold withoutRedirectUrl
    rcases s with _ | s
    · rfl
    · cases s with
      | obj fs => simp [getPropOpt, lookup_filter_key fs]
      | _ => rfl

theorem getForm_outcomes_witness :
    getForm sampleValid redirectDb "abc" = (.error ⟨"Invalid form id", 400⟩, redirectDb) ∧
    (getForm sampleValid redirectDb "f9").1 = .error ⟨"Form not found", 404⟩ ∧
    (getForm sampleValid redirectDb "f2").1 = .ok ⟨"f2", none, none⟩ :=
  ⟨(getForm_outcomes sampleValid redirectDb "abc").1 (by decide),
   (getForm_outcomes sampleValid redirectDb "f9").2.1 (by decide) (by decide),
   ((getForm_outcomes sampleValid redirectDb "f2").2.2 ⟨"f2", none, none⟩ (by decide)
     (by decide)).1⟩

/-- C13: `FormController.get`, for a form that `getForm` retrieved: when the
form's settings require login and the request has no caller, the error 401 is
forwarded and nothing is sent; in every other case the reply is 200 carrying
the form under `success: true`. -/
theorem FormController_get_login_gate (isValid : String → Bool) (db : Db) (id : String)
    (user : Option User) (form : Form) (hget : (getForm isValid db id).1 = .ok form) :
    (truthy (getPropOpt form.settings "requiresLogin") = true → user = none →
      (FormController.get isValid db id user).1 = .forwarded ⟨"Auth required", 401⟩) ∧
    (¬ (truthy (getPropOpt form.settings "requiresLogin") = true ∧ user = none) →
      (FormController.get isValid db id user).1 = .sent 200 true none form) := by
  unfold FormController.get
  rcases hg : getForm isValid db id with ⟨r, db1⟩
  rw [hg] at hget
  simp only at hget
  subst hget
  constructor
  · intro ht hu
    simp [ht, hu]
  · intro hn
    have : (truthy (getPropOpt form.settings "requiresLogin") && user.isNone) = false := by
      cases ht : truthy (getPropOpt form.settings "requiresLogin")
      · rfl
      · cases user with
        | none => exact absurd ⟨ht, rfl⟩ hn
        | some u => rfl
    simp [this, response.ok]

theorem FormController_get_login_gate_witness :
    (FormController.get sampleValid redirectDb "f3" none).1 =
      .forwarded ⟨"Auth required", 401⟩ ∧
    (FormController.get sampleValid redirectDb "f3" (some ⟨some "b2", none⟩)).1 =
      .sent 200 true none ⟨"f3", some "a1", some (.obj [("requiresLogin", .bool true)])⟩ ∧
    (FormController.get sampleValid redirectDb "f2" none).1 =
      .sent 200 true none ⟨"f2", none, none⟩ :=
  ⟨(FormController_get_login_gate sampleValid redirectDb "f3" none
      ⟨"f3", some "a1", some (.obj [("requiresLogin", .bool true)])⟩ (by decide)).1
      (by decide) rfl,
   (FormController_get_login_gate sampleValid redirectDb "f3" (some ⟨some "b2", none⟩)
      ⟨"f3", some "a1", some (.obj [("requiresLogin", .bool true)])⟩ (by decide)).2
      (by decide),
   (FormController_get_login_gate sampleValid redirectDb "f2" none
      ⟨"f2", none, none⟩ (by decide)).2 (by decide)⟩

/-- C14: for an existing form and a caller who passes the authorisation rule,
`deleteForm` issues both deletions (of the responses referencing the form, then
of the form) and returns `true` whichever of the two the store rejects; each
collection changes according to its own deletion alone, so a failure of one
neither prevents nor undoes the other. -/
theorem deleteForm_cascade (isValid : String → Bool) (faults : Faults) (db : Db) (id : String)
    (user : Option User) (form : Form)
    (hvalid : isValid id = true) (hfound : findById db id = some form)
    (hauth : Authorised user form) :
    (deleteForm isValid faults db id user).1 = .ok true ∧
    (deleteForm isValid faults db id user).2.log =
      db.log ++ [DbOp.findById id, DbOp.deleteMany form._id, DbOp.deleteOne form._id] ∧
    (deleteForm isValid faults db id user).2.responses =
      (if faults.deleteManyFails then db.responses
       else db.responses.filter (fun r => !(r.formId == form._id))) ∧
    (deleteForm isValid faults db id user).2.forms =
      (if faults.deleteOneFails then db.forms
       else db.forms.filter (fun f => !(f._id == form._id))) := by
  rw [authorised_iff] at hauth
  have hc : (!isOwner user form && !legacyNoOwner form && !admin user) = false := by
    revert hauth
    cases isOwner user form <;> cases legacyNoOwner form <;> cases admin user <;> simp
  unfold deleteForm
  simp only [hvalid, hfound, Bool.not_true, Bool.false_eq_true, if_false, hc]
  simp [deleteOne, deleteMany]

theorem deleteForm_cascade_witness :
    (deleteForm sampleValid ⟨true, false⟩ sampleDb "f1" (some ⟨some "a1", none⟩)).1 = .ok true ∧
    (deleteForm sampleValid ⟨true, false⟩ sampleDb "f1" (some ⟨some "a1", none⟩)).2.forms =
      [⟨"f2", none, none⟩] ∧
    (deleteForm sampleValid ⟨false, true⟩ sampleDb "f1" (some ⟨some "a1", none⟩)).2.responses =
      [⟨"r3", "f2"⟩] :=
  ⟨(deleteForm_cascade sampleValid ⟨true, false⟩ sampleDb "f1" (some ⟨some "a1", none⟩)
      ⟨"f1", some "a1", none⟩ (by decide) (by decide) (Or.inl ⟨_, rfl, rfl⟩)).1,
   (deleteForm_cascade sampleValid ⟨true, false⟩ sampleDb "f1" (some ⟨some "a1", none⟩)
      ⟨"f1", some "a1", none⟩ (by decide) (by decide) (Or.inl ⟨_, rfl, rfl⟩)).2.2.2,
   (deleteForm_cascade sampleValid ⟨false, true⟩ sampleDb "f1" (some ⟨some "a1", none⟩)
      ⟨"f1", some "a1", none⟩ (by decide) (by decide) (Or.inl ⟨_, rfl, rfl⟩)).2.2.1⟩

/-! ### Shape preservation of `sanitizeValue` (C15) -/

theorem sanitizeArray_eq_map (f : String → String) (xs : List Json) :
    sanitizeArray f xs = xs.map (sanitizeValue f) := by
  induction xs with
  | nil => simp [sanitizeArray]
  | cons x xs ih => simp [sanitizeArray, ih]

theorem sanitizeEntries_eq_map (f : String → String) (fs : List (String × Json)) :
    sanitizeEntries f fs = fs.map (fun kv => (kv.1, sanitizeValue f kv.2)) := by
  induction fs with
  | nil => simp [sanitizeEntries]
  | cons kv fs ih =>
    obtain ⟨k, v⟩ := kv
    simp [sanitizeEntries, ih]

theorem sanitizeEntries_lookup (f : String → String) (fs : List (String × Json)) (k : String) :
    (sanitizeEntries f fs).lookup k = (fs.lookup k).map (sanitizeValue f) := by
  induction fs with
  | nil => rfl
  | cons kv fs ih =>
    obtain ⟨a, v⟩ := kv
    cases hk : k == a <;> simp [sanitizeEntries, List.lookup, hk, ih]

mutual
theorem sanitizeValue_id : ∀ v : Json, sanitizeValue id v = v
  | .str s => by simp [sanitizeValue]
  | .arr xs => by simp [sanitizeValue, sanitizeArray_id xs]
  | .obj fs => by simp [sanitizeValue, sanitizeEntries_id fs]
  | .null => by simp [sanitizeValue]
  | .bool b => by simp [sanitizeValue]
  | .num r => by simp [sanitizeValue]
theorem sanitizeArray_id : ∀ xs : List Json, sanitizeArray id xs = xs
  | [] => by simp [sanitizeArray]
  | x :: xs => by simp [sanitizeArray, sanitizeValue_id x, sanitizeArray_id xs]
theorem sanitizeEntries_id : ∀ fs : List (String × Json), sanitizeEntries id fs = fs
  | [] => by simp [sanitizeEntries]
  | (k, v) :: fs => by simp [sanitizeEntries, sanitizeValue_id v, sanitizeEntries_id fs]
end

mutual
theorem strings_sanitizeValue (f : String → String) :
    ∀ v : Json, (sanitizeValue f v).strings = v.strings.map f
  | .str s => by simp [sanitizeValue, Json.strings]
  | .arr xs => by simp [sanitizeValue, Json.strings, strings_sanitizeArray f xs]
  | .obj fs => by simp [sanitizeValue, Json.strings, strings_sanitizeEntries f fs]
  | .null => by simp [sanitizeValue, Json.strings]
  | .bool b => by simp [sanitizeValue, Json.strings]
  | .num r => by simp [sanitizeValue, Json.strings]
theorem strings_sanitizeArray (f : String → String) :
    ∀ xs : List Json, Json.stringsOfArray (sanitizeArray f xs) = (Json.stringsOfArray xs).map f
  | [] => by simp [sanitizeArray, Json.stringsOfArray]
  | x :: xs => by
    simp [sanitizeArray, Json.stringsOfArray, strings_sanitizeValue f x,
      strings_sanitizeArray f xs]
theorem strings_sanitizeEntries (f : String → String) :
    ∀ fs : List (String × Json),
      Json.stringsOfEntries (sanitizeEntries f fs) = (Json.stringsOfEntries fs).map f
  | [] => by simp [sanitizeEntries, Json.stringsOfEntries]
  | (k, v) :: fs => by
    simp [sanitizeEntries, Json.stringsOfEntries, strings_sanitizeValue f v,
      strings_sanitizeEntries f fs]
end

/-- C15: `sanitizeValue` preserves the shape of a JSON value: an array maps to
an array of the same length whose `i`-th entry is the sanitised `i`-th entry; an
object maps to an object with the same keys in the same order whose values are
the sanitised values; a string is replaced by the filter's result, and so is
every string at any depth; a number, a boolean and `null` are returned
unchanged; and under the identity filter `sanitizeValue` is the identity. -/
theorem sanitizeValue_preserves_shape (f : String → String) :
    (∀ xs, ∃ ys, sanitizeValue f (.arr xs) = .arr ys ∧ ys.length = xs.length ∧
      ∀ (i : Nat) (x : Json), xs[i]? = some x → ys[i]? = some (sanitizeValue f x)) ∧
    (∀ fs, ∃ gs, sanitizeValue f (.obj fs) = .obj gs ∧
      gs.map Prod.fst = fs.map Prod.fst ∧
      ∀ k, gs.lookup k = (fs.lookup k).map (sanitizeValue f)) ∧
    (∀ s, sanitizeValue f (.str s) = .str (f s)) ∧
    (∀ r, sanitizeValue f (.num r) = .num r) ∧
    (∀ b, sanitizeValue f (.bool b) = .bool b) ∧
    sanitizeValue f .null = .null ∧
    (∀ v, (sanitizeValue f v).strings = v.strings.map f) ∧
    (∀ v, sanitizeValue id v = v) := by
  refine ⟨?_, ?_, ?_, ?_, ?_, ?_, strings_sanitizeValue f, sanitizeValue_id⟩
  · intro xs
    refine ⟨sanitizeArray f xs, by simp [sanitizeValue], ?_, ?_⟩
    · simp [sanitizeArray_eq_map]
    · intro i x hx
      simp [sanitizeArray_eq_map, hx]
  · intro fs
    refine ⟨sanitizeEntries f fs, by simp [sanitizeValue], ?_, sanitizeEntries_lookup f fs⟩
    simp [sanitizeEntries_eq_map]
  · intro s; simp [sanitizeValue]
  · intro r; simp [sanitizeValue]
  · intro b; simp [sanitizeValue]
  · simp [sanitizeValue]

theorem sanitizeValue_preserves_shape_witness :
    sanitizeValue (fun s => s ++ "!")
        (.obj [("a", .arr [.str "x", .num "1"]), ("b", .null)]) =
      .obj [("a", .arr [.str "x!", .num "1"]), ("b", .null)] ∧
    (sanitizeArray (fun s => s ++ "!") [.str "x", .num "1"])[0]? = some (.str "x!") :=
  ⟨by decide,
   by
    obtain ⟨ys, hys, -, hget⟩ :=
      (sanitizeValue_preserves_shape (fun s => s ++ "!")).1 [.str "x", .num "1"]
    have h0 := hget 0 (.str "x") rfl
    simp only [sanitizeValue, Json.arr.injEq] at hys
    rw [hys]
    simpa [sanitizeValue] using h0⟩

end EventSystem
